import Mathlib

/-!
Shallow embedding of the money/metrics core of the SalonFlow repository
(React pages over a Supabase backend).  TypeScript pages are embedded as
pure Lean functions; the Supabase query builder calls issued by the pages
(`select/eq/order/like/gte`, `insert`, `update`, `delete`) are embedded as
list operations on an explicit backing-store table, so that each page-level
request becomes a function from the table (and the request parameters) to
the table or the returned rows.

Conventions:
* JavaScript `number` values holding money are integers (cents) in the
  code's own invariant, embedded as `Int`; user-facing decimal values are
  embedded as `ℚ` (exact; the float subtleties the code itself ignores are
  out of scope except where a claim forces them, see `JSNumber`).
* ISO date strings `YYYY-MM-DD` for financial entries are embedded as
  integer day numbers (`Int`): lexicographic comparison of ISO date strings
  agrees with chronological order, so the code's string `gte` filter and
  string-keyed grouping are faithfully represented by `Int` comparison and
  `Int`-keyed grouping.  Appointment timestamps (`YYYY-MM-DDTHH:mm`) stay
  `String`, since the code filters them with a `like '<day>%'` prefix match
  and orders them lexicographically.
-/

namespace SalonFlow

/-- A row of the `products` table (shared/types.ts `ProductSchema`). -/
structure Product where
  id : Nat
  user_id : String
  name : String
  description : String
  price : Int
  quantity : Option Int
  image_url : String
  deriving Repr, DecidableEq

/-- A row of the `financial_entries` table (shared/types.ts
`FinancialEntrySchema`); `entry_date` is the day number of the ISO date. -/
structure FinancialEntry where
  id : Nat
  user_id : String
  description : String
  amount : Int
  type : String
  entry_type : String
  entry_date : Int
  deriving Repr, DecidableEq

/-- A row of the `appointments` table (shared/types.ts `AppointmentSchema`);
`appointment_date` is the ISO `YYYY-MM-DDTHH:mm` timestamp string. -/
structure Appointment where
  id : Nat
  user_id : String
  client_name : String
  service : String
  price : Int
  professional : String
  appointment_date : String
  is_confirmed : Bool
  deriving Repr, DecidableEq

/-! ### Money (react-app/utils.ts and the form submit handlers) -/

/-- JavaScript `Math.round`: round to the nearest integer, halves toward
positive infinity. -/
def jsRound (q : ℚ) : Int := Int.floor (q + 1 / 2)

/-- The ingestion conversion used by every submit handler
(`Math.round(Number(formData.price) * 100)`, Products.tsx `onSubmit`;
identically for appointments and financial entries). -/
def fromUserInput (d : ℚ) : Int := jsRound (d * 100)

/-- The numeric value displayed by `formatCurrency` (react-app/utils.ts):
the stored cent count divided by 100; `Intl.NumberFormat` then renders this
exact decimal.  Re-parsing the rendered string yields this value. -/
def toDisplayValue (m : Int) : ℚ := (m : ℚ) / 100

/-- The form-refill conversion (`product.price / 100` in
`handleEditProduct`): same exact division as the display path. -/
def toFormValue (m : Int) : ℚ := (m : ℚ) / 100

/-! ### Low stock (Products.tsx `isLowStock`) -/

/-- `const isLowStock = (quantity) => (quantity ?? 0) <= 5;`
A missing (`null`/`undefined`) quantity is `none`. -/
def isLowStock (quantity : Option Int) : Bool := quantity.getD 0 ≤ 5

/-! ### Sync Gateway fetches

Modelled from the spec: the Sync Gateway (Supabase, an external
collaborator) executes `list(filter)` by returning the table rows that
satisfy every `eq`/`like`/`gte` filter, in the order requested by
`order(column, ascending)`.  The filter and order arguments below are
taken verbatim from the page code. -/

/-- Ordering relation used by `fetchProducts`:
`order('name', ascending: true)`. -/
def byNameAsc (a b : Product) : Prop := a.name ≤ b.name

instance : DecidableRel byNameAsc :=
  fun a b => inferInstanceAs (Decidable (a.name ≤ b.name))

instance : IsTotal Product byNameAsc := ⟨fun a b => le_total a.name b.name⟩

instance : IsTrans Product byNameAsc := ⟨fun _ _ _ hab hbc => le_trans hab hbc⟩

/-- Ordering relation used by `fetchAppointments`:
`order('appointment_date', ascending: true)`. -/
def byDateAsc (a b : Appointment) : Prop :=
  a.appointment_date ≤ b.appointment_date

instance : DecidableRel byDateAsc :=
  fun a b => inferInstanceAs (Decidable (a.appointment_date ≤ b.appointment_date))

instance : IsTotal Appointment byDateAsc :=
  ⟨fun a b => le_total a.appointment_date b.appointment_date⟩

instance : IsTrans Appointment byDateAsc := ⟨fun _ _ _ hab hbc => le_trans hab hbc⟩

/-- Ordering relation used by `fetchEntries`:
`order('entry_date', ascending: false)`. -/
def byEntryDateDesc (a b : FinancialEntry) : Prop := b.entry_date ≤ a.entry_date

instance : DecidableRel byEntryDateDesc :=
  fun a b => inferInstanceAs (Decidable (b.entry_date ≤ a.entry_date))

instance : IsTotal FinancialEntry byEntryDateDesc :=
  ⟨fun a b => le_total b.entry_date a.entry_date⟩

instance : IsTrans FinancialEntry byEntryDateDesc :=
  ⟨fun _ _ _ hab hbc => le_trans hbc hab⟩

/-- Products.tsx `fetchProducts`: `from('products').select('*')
.eq('user_id', user.id).order('name', ascending: true)`. -/
def fetchProducts (table : List Product) (uid : String) : List Product :=
  List.insertionSort byNameAsc (table.filter (fun r => r.user_id == uid))

/-- Appointments.tsx `fetchAppointments`: `from('appointments').select('*')
.eq('user_id', user.id).order('appointment_date', ascending: true)`. -/
def fetchAppointments (table : List Appointment) (uid : String) : List Appointment :=
  List.insertionSort byDateAsc (table.filter (fun r => r.user_id == uid))

/-- Financial.tsx `fetchEntries`: `from('financial_entries').select('*')
.eq('user_id', user.id).order('entry_date', ascending: false)`. -/
def fetchEntries (table : List FinancialEntry) (uid : String) : List FinancialEntry :=
  List.insertionSort byEntryDateDesc (table.filter (fun r => r.user_id == uid))

/-! ### Sync Gateway mutations

Modelled from the spec: the gateway's `update` applies the submitted patch
to every table row that satisfies every `eq` filter of the request, and
`delete` removes every row that satisfies every `eq` filter; rows are
otherwise untouched.  `insert` appends the submitted record. -/

/-- The column values sent by the Products.tsx `onSubmit` update payload
(`productData = { ...formData, price: Math.round(...) }` — note it carries
no `id` and no `user_id` column). -/
structure ProductPatch where
  name : String
  description : String
  price : Int
  quantity : Option Int
  image_url : String
  deriving Repr, DecidableEq

/-- Applying a product update payload to a row: every submitted column is
overwritten; `id` and `user_id` are not in the payload and keep their
values. -/
def applyProductPatch (patch : ProductPatch) (r : Product) : Product :=
  { r with
    name := patch.name
    description := patch.description
    price := patch.price
    quantity := patch.quantity
    image_url := patch.image_url }

/-- Products.tsx `onSubmit` (update branch): `from('products')
.update(productData).eq('id', editingProduct.id).eq('user_id', user.id)`. -/
def updateProductRequest (table : List Product) (uid : String) (pid : Nat)
    (patch : ProductPatch) : List Product :=
  table.map (fun r => if r.id == pid && r.user_id == uid then applyProductPatch patch r else r)

/-- Products.tsx `handleDeleteProduct` remote call: `from('products')
.delete().eq('id', productId).eq('user_id', user.id)`. -/
def deleteProductRequest (table : List Product) (uid : String) (pid : Nat) :
    List Product :=
  table.filter (fun r => !(r.id == pid && r.user_id == uid))

/-- Products.tsx `onSubmit` (create branch): `from('products')
.insert([{ ...productData, user_id: user.id }])`; the gateway assigns the
fresh `id`. -/
def insertProductRequest (table : List Product) (uid : String) (newId : Nat)
    (patch : ProductPatch) : List Product :=
  table ++ [{ id := newId, user_id := uid, name := patch.name,
              description := patch.description, price := patch.price,
              quantity := patch.quantity, image_url := patch.image_url }]

/-- The column values sent by the Financial.tsx `onSubmit` payload
(`entryData = { ...formData, amount: Math.round(...) }` — no `id`, no
`user_id`). -/
structure EntryPatch where
  description : String
  amount : Int
  type : String
  entry_type : String
  entry_date : Int
  deriving Repr, DecidableEq

/-- Applying a financial-entry update payload to a row. -/
def applyEntryPatch (patch : EntryPatch) (r : FinancialEntry) : FinancialEntry :=
  { r with
    description := patch.description
    amount := patch.amount
    type := patch.type
    entry_type := patch.entry_type
    entry_date := patch.entry_date }

/-- Financial.tsx (part_001) `onSubmit` update branch, verbatim:
`from('financial_entries').update(entryData).eq('id', editingEntry.id)` —
this request carries no `user_id` filter. -/
def updateEntryRequest (table : List FinancialEntry) (eid : Nat)
    (patch : EntryPatch) : List FinancialEntry :=
  table.map (fun r => if r.id == eid then applyEntryPatch patch r else r)

/-- Financial.tsx `handleDeleteEntry` remote call: `from('financial_entries')
.delete().eq('id', entryToDelete).eq('user_id', user.id)`. -/
def deleteEntryRequest (table : List FinancialEntry) (uid : String) (eid : Nat) :
    List FinancialEntry :=
  table.filter (fun r => !(r.id == eid && r.user_id == uid))

/-! ### Dashboard daily KPIs (Dashboard.tsx `fetchKPIs`) -/

/-- The record returned by Dashboard.tsx `fetchKPIs`.  `avgTicket` is a
JavaScript `number` produced by the division `dailyEarnings /
dailyAppointments`, embedded exactly as a rational. -/
structure DashboardKPIs where
  dailyEarnings : Int
  dailyAppointments : Nat
  avgTicket : ℚ
  deriving Repr, DecidableEq

/-- The SQL `like (pattern + percent)` prefix match used by the daily and
monthly queries, as a character-list prefix test. -/
def likePrefix (pattern s : String) : Bool := pattern.data.isPrefixOf s.data

/-- The rows selected by the Dashboard.tsx `fetchKPIs` query:
`eq('user_id', user.id)` and `like('appointment_date', today + percent)`
(an ISO-day prefix match). -/
def dailyRows (table : List Appointment) (uid : String) (today : String) :
    List Appointment :=
  table.filter (fun a => a.user_id == uid && likePrefix today a.appointment_date)

/-- Dashboard.tsx `fetchKPIs`:
`dailyAppointments = rows.length`,
`dailyEarnings = rows.reduce((sum, app) => sum + app.price, 0)`,
`avgTicket = dailyAppointments > 0 ? dailyEarnings / dailyAppointments : 0`. -/
def fetchDailyKPIs (table : List Appointment) (uid : String) (today : String) :
    DashboardKPIs :=
  { dailyEarnings := ((dailyRows table uid today).map (fun a => a.price)).sum
    dailyAppointments := (dailyRows table uid today).length
    avgTicket :=
      if 0 < (dailyRows table uid today).length then
        (((((dailyRows table uid today).map (fun a => a.price)).sum : ℤ) : ℚ))
          / ((dailyRows table uid today).length : ℚ)
      else 0 }

/-! ### Weekly earnings (Dashboard.tsx `fetchWeeklyEarnings`) -/

/-- The JavaScript object `earningsByDay` built by `fetchWeeklyEarnings`:
a valuation on date keys together with the key list in insertion order
(plain-object keys of date-string shape preserve insertion order, and
`Object.entries` enumerates them in that order).  An absent key reads as 0
via the code's `(earningsByDay[d] || 0)`. -/
structure EarningsByDay where
  keys : List Int
  val : Int → Int

/-- One loop iteration of `fetchWeeklyEarnings`:
`earningsByDay[entry.entry_date] = (earningsByDay[entry.entry_date] || 0) +
entry.amount`. -/
def addDay (o : EarningsByDay) (d : Int) (amount : Int) : EarningsByDay :=
  { keys := if d ∈ o.keys then o.keys else o.keys ++ [d]
    val := fun x => if x = d then o.val x + amount else o.val x }

/-- The grouping loop of `fetchWeeklyEarnings` over the fetched rows. -/
def groupByDay (rows : List FinancialEntry) : EarningsByDay :=
  rows.foldl (fun o e => addDay o e.entry_date e.amount) ⟨[], fun _ => 0⟩

/-- The row filter of the `fetchWeeklyEarnings` query:
`eq('user_id', user.id).eq('type', 'receita').gte('entry_date',
sevenDaysAgo)` with `sevenDaysAgo = today - 6 days`; note the query has no
upper date bound. -/
def weeklyRowFilter (uid : String) (today : Int) (e : FinancialEntry) : Bool :=
  e.user_id == uid && e.type == "receita" && today - 6 ≤ e.entry_date

/-- Dashboard.tsx `fetchWeeklyEarnings`: fetch the filtered rows, group
them by `entry_date` summing `amount`, and return
`Object.entries(earningsByDay)` as `(entry_date, earnings)` pairs. -/
def fetchWeeklyEarnings (table : List FinancialEntry) (uid : String)
    (today : Int) : List (Int × Int) :=
  let o := groupByDay (table.filter (weeklyRowFilter uid today))
  o.keys.map (fun d => (d, o.val d))

/-! ### Monthly financial KPIs (Financial.tsx `fetchKPIs` and
`fetchEntriesAndKPIs`) -/

/-- The accumulator of the Financial.tsx `fetchKPIs` reduce. -/
structure MonthlyKPIs where
  monthlyRevenue : Int
  monthlyExpenses : Int
  deriving Repr, DecidableEq

/-- One step of the Financial.tsx `fetchKPIs` reduce:
`receita` rows add to `monthlyRevenue`, `despesa` rows add to
`monthlyExpenses`, anything else is ignored. -/
def kpiStep (acc : MonthlyKPIs) (e : FinancialEntry) : MonthlyKPIs :=
  if e.type == "receita" then { acc with monthlyRevenue := acc.monthlyRevenue + e.amount }
  else if e.type == "despesa" then { acc with monthlyExpenses := acc.monthlyExpenses + e.amount }
  else acc

/-- Financial.tsx `fetchKPIs`: selects the current month's rows with
`eq('user_id', user.id).like('entry_date', currentMonth + percent)` (the
ISO-month prefix match; under the day-number embedding the month is the
inclusive day interval `[monthLo, monthHi]`), then reduces them. -/
def fetchMonthlyKPIs (table : List FinancialEntry) (uid : String)
    (monthLo monthHi : Int) : MonthlyKPIs :=
  (table.filter
    (fun e => e.user_id == uid && monthLo ≤ e.entry_date && e.entry_date ≤ monthHi)).foldl
    kpiStep { monthlyRevenue := 0, monthlyExpenses := 0 }

/-- Financial.tsx `fetchEntriesAndKPIs`:
`netProfit = kpisData.monthlyRevenue - kpisData.monthlyExpenses`. -/
def netProfit (k : MonthlyKPIs) : Int := k.monthlyRevenue - k.monthlyExpenses

/-! ### Optimistic delete with rollback (Products.tsx `handleDeleteProduct`,
part_007) -/

/-- Outcome of the remote delete call, as seen by the page. -/
inductive RemoteResult where
  | ok
  | err
  deriving Repr, DecidableEq

/-- The page state `handleDeleteProduct` leaves behind: the `products`
collection and the visible `error` banner. -/
structure DeleteOutcome where
  products : List Product
  error : Option String
  deriving Repr, DecidableEq

/-- Products.tsx (part_007) `handleDeleteProduct`: saves
`originalProducts = [...products]`, optimistically removes the record
(`prevProducts.filter(p => p.id !== productId)`), issues the remote
delete, and on failure restores `originalProducts` and sets the error
banner. -/
def handleDeleteProduct (products : List Product) (pid : Nat)
    (remote : RemoteResult) : DeleteOutcome :=
  let optimistic := products.filter (fun p => !(p.id == pid))
  match remote with
  | RemoteResult.ok => { products := optimistic, error := none }
  | RemoteResult.err =>
    { products := products
      error := some "Erro ao excluir o produto. A operacao foi desfeita." }

/-! ### Monetary input validation (shared/types.ts schemas + submit
handlers)

The zod check `z.number().positive()` used by `ProductSchema.price`,
`AppointmentSchema.price` and `FinancialEntrySchema.amount` is an external
library; its semantics is embedded here: zod's number type check rejects
`NaN` (its parsed type is `nan`, not `number`) but accepts `Infinity`,
and `.positive()` is the JavaScript comparison `value > 0`, which
`Infinity` satisfies; zod rejects non-finite numbers only when `.finite()`
is chained, which these schemas do not do. -/

/-- A JavaScript `number` as seen by the validation layer: `NaN`, the two
infinities, or a finite value (embedded exactly as a rational). -/
inductive JSNumber where
  | nan
  | posInf
  | negInf
  | finite (q : ℚ)
  deriving DecidableEq

/-- zod `z.number()` type check: `NaN` is parsed type `nan` and fails;
every other `number` (including the infinities) passes. -/
def zodIsNumber : JSNumber → Bool
  | JSNumber.nan => false
  | _ => true

/-- The JavaScript comparison `x > 0` used by zod `.positive()`. -/
def jsGtZero : JSNumber → Bool
  | JSNumber.nan => false
  | JSNumber.posInf => true
  | JSNumber.negInf => false
  | JSNumber.finite q => decide (0 < q)

/-- Whether `z.number().positive()` accepts the submitted amount: this is
the only guard between the form value and the stored cent count. -/
def amountAccepted (x : JSNumber) : Bool := zodIsNumber x && jsGtZero x

/-- The stored value produced by `Math.round(x * 100)` on an accepted
input: an integer for finite `x`, but `NaN`/`Infinity` propagate through
`*` and `Math.round`, so no integer exists for non-finite `x`. -/
def storedCents : JSNumber → Option Int
  | JSNumber.finite q => some (jsRound (q * 100))
  | _ => none

/-! ### Concrete records used by the tests -/

/-- Same-day appointment priced at 333 cents. -/
def app333 : Appointment :=
  { id := 1, user_id := "A", client_name := "Ana", service := "corte",
    price := 333, professional := "Bia",
    appointment_date := "2024-01-02T10:00", is_confirmed := false }

/-- Same-day appointment priced at 334 cents. -/
def app334 : Appointment :=
  { id := 2, user_id := "A", client_name := "Ana", service := "corte",
    price := 334, professional := "Bia",
    appointment_date := "2024-01-02T11:00", is_confirmed := true }

/-- Revenue entry of 500 cents in the reference month. -/
def revEntry : FinancialEntry :=
  { id := 1, user_id := "A", description := "servico", amount := 500,
    type := "receita", entry_type := "pontual", entry_date := 10 }

/-- Expense entry of 700 cents in the reference month. -/
def expEntry : FinancialEntry :=
  { id := 2, user_id := "A", description := "material", amount := 700,
    type := "despesa", entry_type := "pontual", entry_date := 12 }

/-- Revenue entry dated one day after the reference date 10. -/
def futureEntry : FinancialEntry :=
  { id := 3, user_id := "A", description := "adiantamento", amount := 500,
    type := "receita", entry_type := "pontual", entry_date := 11 }

/-- Revenue entry on day 1 of the window ending on day 7. -/
def day1Entry : FinancialEntry :=
  { id := 4, user_id := "A", description := "d1", amount := 100,
    type := "receita", entry_type := "pontual", entry_date := 1 }

/-- Revenue entry on day 3 of the window ending on day 7. -/
def day3Entry : FinancialEntry :=
  { id := 5, user_id := "A", description := "d3", amount := 200,
    type := "receita", entry_type := "pontual", entry_date := 3 }

/-- A financial entry belonging to owner `B`, id 1. -/
def entryB : FinancialEntry :=
  { id := 1, user_id := "B", description := "aluguel", amount := 100,
    type := "despesa", entry_type := "fixa", entry_date := 5 }

/-- A product belonging to owner `B`, id 1. -/
def prodB : Product :=
  { id := 1, user_id := "B", name := "shampoo", description := "",
    price := 1050, quantity := some 3, image_url := "" }

/-- An update payload for a financial entry, changing the amount to 999. -/
def patchX : EntryPatch :=
  { description := "alterado", amount := 999, type := "despesa",
    entry_type := "fixa", entry_date := 5 }

/-- An update payload for a product. -/
def ppatch0 : ProductPatch :=
  { name := "shampoo", description := "", price := 1100,
    quantity := some 3, image_url := "" }

/-! ### Claim theorems -/

/-- C10: the derived low-stock flag is true exactly when the product's
quantity is at most the fixed threshold 5, a missing quantity counts as 0
and is low-stock, quantity 5 is flagged and quantity 6 is not. -/
theorem C10_low_stock_boundary (n : Int) :
    isLowStock none = true ∧
    isLowStock (some n) = decide (n ≤ 5) ∧
    isLowStock (some 5) = true ∧
    isLowStock (some 6) = false := by
  refine ⟨rfl, ?_, by decide, by decide⟩
  simp [isLowStock]

/-- C8: if the optimistic remove operation's remote delete fails, the
in-memory product collection is restored to exactly its pre-removal state
and the error is surfaced; on success the removed record stays filtered
out. -/
theorem C8_delete_rollback (products : List Product) (pid : Nat) :
    (handleDeleteProduct products pid RemoteResult.err).products = products ∧
    (handleDeleteProduct products pid RemoteResult.err).error.isSome = true ∧
    (handleDeleteProduct products pid RemoteResult.ok).products
      = products.filter (fun p => !(p.id == pid)) :=
  ⟨rfl, rfl, rfl⟩

/-- C3: for every non-negative decimal input with at most 2 fractional
digits (an exact multiple of 1/100), converting to integer minor units at
ingestion and back for display yields the same value — no drift. -/
theorem C3_money_round_trip (d : ℚ) (_h0 : 0 ≤ d) (hden : (d * 100).den = 1) :
    toDisplayValue (fromUserInput d) = d := by
  have hq : (((d * 100).num : ℚ)) = d * 100 :=
    Rat.coe_int_num_of_den_eq_one hden
  unfold toDisplayValue fromUserInput jsRound
  rw [← hq, Int.floor_int_add]
  have h12 : Int.floor ((1 : ℚ) / 2) = 0 := by
    rw [Int.floor_eq_zero_iff]
    constructor <;> norm_num
  rw [h12, add_zero, hq]
  field_simp

/-- C3 witness: the spec's example 10.50 euros round-trips exactly. -/
theorem C3_money_round_trip_witness :
    toDisplayValue (fromUserInput (21 / 2 : ℚ)) = 21 / 2 := by
  refine C3_money_round_trip _ (by norm_num) ?_
  rw [show (21 / 2 : ℚ) * 100 = 1050 by norm_num]
  simp

/-- The `fetchKPIs` reduce of Financial.tsx computes, over any row list and
accumulator, the two type-wise sums independently. -/
theorem kpiFold_sums (rows : List FinancialEntry) (acc : MonthlyKPIs) :
    (rows.foldl kpiStep acc).monthlyRevenue
      = acc.monthlyRevenue
        + ((rows.filter (fun e => e.type == "receita")).map (fun e => e.amount)).sum ∧
    (rows.foldl kpiStep acc).monthlyExpenses
      = acc.monthlyExpenses
        + ((rows.filter (fun e => e.type == "despesa")).map (fun e => e.amount)).sum := by
  induction rows generalizing acc with
  | nil => simp
  | cons e rows ih =>
    rcases ih (kpiStep acc e) with ⟨ihr, ihe⟩
    by_cases hr : e.type = "receita"
    · constructor
      · rw [List.foldl_cons, ihr]
        simp [kpiStep, hr, add_assoc]
      · rw [List.foldl_cons, ihe]
        simp [kpiStep, hr]
    · by_cases hd : e.type = "despesa"
      · constructor
        · rw [List.foldl_cons, ihr]
          simp [kpiStep, hr, hd]
        · rw [List.foldl_cons, ihe]
          simp [kpiStep, hr, hd, add_assoc]
      · constructor
        · rw [List.foldl_cons, ihr]
          simp [kpiStep, hr, hd]
        · rw [List.foldl_cons, ihe]
          simp [kpiStep, hr, hd]

/-- C7: `fetchKPIs` sums the revenue-type and expense-type integer amounts
of the reference month independently, `netProfit` is their signed
difference and is not clamped to zero: revenue 500 and expenses 700 give
net profit -200. -/
theorem C7_net_profit_sign (table : List FinancialEntry) (uid : String)
    (lo hi : Int) :
    (fetchMonthlyKPIs table uid lo hi).monthlyRevenue
      = (((table.filter
            (fun e => e.user_id == uid && lo ≤ e.entry_date && e.entry_date ≤ hi)).filter
            (fun e => e.type == "receita")).map (fun e => e.amount)).sum ∧
    (fetchMonthlyKPIs table uid lo hi).monthlyExpenses
      = (((table.filter
            (fun e => e.user_id == uid && lo ≤ e.entry_date && e.entry_date ≤ hi)).filter
            (fun e => e.type == "despesa")).map (fun e => e.amount)).sum ∧
    netProfit (fetchMonthlyKPIs table uid lo hi)
      = (fetchMonthlyKPIs table uid lo hi).monthlyRevenue
        - (fetchMonthlyKPIs table uid lo hi).monthlyExpenses ∧
    netProfit (fetchMonthlyKPIs [revEntry, expEntry] "A" 1 30) = -200 ∧
    netProfit (fetchMonthlyKPIs [revEntry, expEntry] "A" 1 30) < 0 := by
  refine ⟨?_, ?_, rfl, by decide, by decide⟩
  · rw [fetchMonthlyKPIs, (kpiFold_sums _ _).1]
    simp
  · rw [fetchMonthlyKPIs, (kpiFold_sums _ _).2]
    simp

/-- C2 counterexample: for two same-day appointments priced 333 and 334
cents, the dashboard `fetchKPIs` returns the plain quotient 333.5 as the
average ticket, not the claimed round-half-up value 334. -/
theorem C2_counterexample :
    (fetchDailyKPIs [app333, app334] "A" "2024-01-02").dailyAppointments = 2 ∧
    (fetchDailyKPIs [app333, app334] "A" "2024-01-02").dailyEarnings = 667 ∧
    (fetchDailyKPIs [app333, app334] "A" "2024-01-02").avgTicket = 667 / 2 ∧
    (667 / 2 : ℚ) ≠ 334 := by
  have hrows : dailyRows [app333, app334] "A" "2024-01-02" = [app333, app334] := by
    rfl
  refine ⟨?_, ?_, ?_, by norm_num⟩
  · simp only [fetchDailyKPIs, hrows]
    rfl
  · simp only [fetchDailyKPIs, hrows]
    simp [app333, app334]
  · simp only [fetchDailyKPIs, hrows]
    norm_num [app333, app334]

/-- C2 amended: the dashboard `fetchKPIs` sums the integer prices of the
reference day's appointments and counts them, and returns the exact
unrounded quotient as the average ticket (0 when the count is 0): the
average times the count equals the earnings, and the prices 333 and 334
yield the average 333.5. -/
theorem C2_average_ticket_exact (table : List Appointment) (uid today : String) :
    (fetchDailyKPIs table uid today).avgTicket
        * ((fetchDailyKPIs table uid today).dailyAppointments : ℚ)
      = ((fetchDailyKPIs table uid today).dailyEarnings : ℚ) ∧
    (fetchDailyKPIs [] uid today).avgTicket = 0 ∧
    (fetchDailyKPIs [app333, app334] "A" "2024-01-02").avgTicket = 667 / 2 := by
  refine ⟨?_, rfl, ?_⟩
  · simp only [fetchDailyKPIs]
    by_cases h : 0 < (dailyRows table uid today).length
    · rw [if_pos h, div_mul_cancel₀]
      exact ne_of_gt (by exact_mod_cast h)
    · have h0 : (dailyRows table uid today).length = 0 := Nat.eq_zero_of_not_pos h
      rw [if_neg h, h0]
      rw [List.length_eq_zero] at h0
      simp [h0]
  · have hrows : dailyRows [app333, app334] "A" "2024-01-02" = [app333, app334] := by
      rfl
    simp only [fetchDailyKPIs, hrows]
    norm_num [app333, app334]

/-- C4 counterexample: the submitted value `Infinity` passes the
`z.number().positive()` validation (so no error is surfaced), yet
`Math.round(Infinity * 100)` yields no integer — a corrupted value reaches
the store. -/
theorem C4_counterexample :
    amountAccepted JSNumber.posInf = true ∧
    storedCents JSNumber.posInf = none :=
  ⟨rfl, rfl⟩

/-- C4 amended: `NaN` fails zod's number type check and non-positive
finite values fail `.positive()`, so both are rejected before any store
(as is negative infinity); but positive infinity passes the validation and
its conversion produces no integer, while every accepted finite value is
stored as the rounded integer cent count. -/
theorem C4_validation (q : ℚ) (hq : q ≤ 0) (r : ℚ) :
    amountAccepted JSNumber.nan = false ∧
    amountAccepted JSNumber.negInf = false ∧
    amountAccepted (JSNumber.finite q) = false ∧
    amountAccepted JSNumber.posInf = true ∧
    storedCents JSNumber.posInf = none ∧
    storedCents (JSNumber.finite r) = some (jsRound (r * 100)) := by
  refine ⟨rfl, rfl, ?_, rfl, rfl, rfl⟩
  simp [amountAccepted, zodIsNumber, jsGtZero, not_lt.mpr hq]

/-- C4 witness: the rejected input -1 and the accepted input 3.50
(stored as 350 cents). -/
theorem C4_validation_witness :
    amountAccepted (JSNumber.finite (-1)) = false ∧
    storedCents (JSNumber.finite (7 / 2)) = some 350 := by
  have h := C4_validation (-1) (by norm_num) (7 / 2)
  refine ⟨h.2.2.1, ?_⟩
  rw [h.2.2.2.2.2]
  have : jsRound ((7 / 2 : ℚ) * 100) = 350 := by
    rw [show (7 / 2 : ℚ) * 100 = 350 by norm_num]
    unfold jsRound
    rw [show (350 : ℚ) + 1 / 2 = (350 : ℤ) + 1 / 2 by norm_num, Int.floor_int_add]
    norm_num [Int.floor_eq_zero_iff]
  rw [this]

/-! ### Grouping lemmas for `fetchWeeklyEarnings` -/

/-- The summed amount of the rows dated `d`. -/
def sumAmountsOn (rows : List FinancialEntry) (d : Int) : Int :=
  ((rows.filter (fun e => e.entry_date == d)).map (fun e => e.amount)).sum

/-- The valuation built by the grouping loop: starting from any object,
each date key accumulates exactly the amounts of the rows with that
date. -/
theorem groupFold_val (rows : List FinancialEntry) (o : EarningsByDay) (d : Int) :
    ((rows.foldl (fun o e => addDay o e.entry_date e.amount) o).val) d
      = o.val d + sumAmountsOn rows d := by
  induction rows generalizing o with
  | nil => simp [sumAmountsOn]
  | cons e rows ih =>
    rw [List.foldl_cons, ih]
    by_cases h : e.entry_date = d
    · simp [addDay, sumAmountsOn, h, add_assoc]
    · have h' : ¬d = e.entry_date := fun hc => h hc.symm
      have hb : (e.entry_date == d) = false := by
        simp [h]
      simp [addDay, sumAmountsOn, h', hb]

/-- Key membership for one grouping step. -/
theorem mem_addDay_keys (o : EarningsByDay) (d amount x : Int) :
    x ∈ (addDay o d amount).keys ↔ x ∈ o.keys ∨ x = d := by
  unfold addDay
  by_cases h : d ∈ o.keys
  · rw [if_pos h]
    constructor
    · exact Or.inl
    · rintro (hx | rfl)
      · exact hx
      · exact h
  · rw [if_neg h]
    simp

/-- Key membership for the grouping loop: the keys are the start keys plus
the dates of the processed rows. -/
theorem groupFold_keys (rows : List FinancialEntry) (o : EarningsByDay) (x : Int) :
    x ∈ (rows.foldl (fun o e => addDay o e.entry_date e.amount) o).keys
      ↔ x ∈ o.keys ∨ ∃ e ∈ rows, e.entry_date = x := by
  induction rows generalizing o with
  | nil => simp
  | cons e rows ih =>
    rw [List.foldl_cons, ih, mem_addDay_keys]
    constructor
    · rintro ((hk | hd) | ⟨e', he', hx⟩)
      · exact Or.inl hk
      · exact Or.inr ⟨e, List.mem_cons_self e rows, hd.symm⟩
      · exact Or.inr ⟨e', List.mem_cons_of_mem e he', hx⟩
    · rintro (hk | ⟨e', he', hx⟩)
      · exact Or.inl (Or.inl hk)
      · rcases List.mem_cons.mp he' with rfl | hmem
        · exact Or.inl (Or.inr hx.symm)
        · exact Or.inr ⟨e', hmem, hx⟩

/-- The grouping loop never duplicates a key. -/
theorem groupFold_nodup (rows : List FinancialEntry) (o : EarningsByDay)
    (h : o.keys.Nodup) :
    (rows.foldl (fun o e => addDay o e.entry_date e.amount) o).keys.Nodup := by
  induction rows generalizing o with
  | nil => exact h
  | cons e rows ih =>
    rw [List.foldl_cons]
    refine ih _ ?_
    unfold addDay
    by_cases hk : e.entry_date ∈ o.keys
    · rw [if_pos hk]
      exact h
    · rw [if_neg hk]
      simp [List.nodup_append, h, hk]

/-- C5 counterexample: a revenue entry dated one day after the reference
date 10 — outside the claimed inclusive window ending at the reference
date — is returned by `fetchWeeklyEarnings`, because the query has no
upper date bound. -/
theorem C5_counterexample :
    fetchWeeklyEarnings [futureEntry] "A" 10 = [(11, 500)] ∧
    ¬((11 : Int) ≤ 10) := by
  constructor
  · rfl
  · decide

/-- C5 amended: `fetchWeeklyEarnings` draws from exactly the revenue
entries of the owner with `entry_date ≥ referenceDate - 6` — an inclusive
lower bound only, with no upper bound, so later-dated revenue entries are
included as well — grouping by date and summing the integer amounts per
date. -/
theorem C5_weekly_window (table : List FinancialEntry) (uid : String)
    (today : Int) :
    ∀ p ∈ fetchWeeklyEarnings table uid today,
      p.2 = sumAmountsOn (table.filter (weeklyRowFilter uid today)) p.1 ∧
      ∃ e ∈ table, e.user_id = uid ∧ e.type = "receita" ∧
        today - 6 ≤ e.entry_date ∧ e.entry_date = p.1 := by
  intro p hp
  simp only [fetchWeeklyEarnings] at hp
  rcases List.mem_map.mp hp with ⟨d, hd, rfl⟩
  constructor
  · show (groupByDay (table.filter (weeklyRowFilter uid today))).val d = _
    unfold groupByDay
    rw [groupFold_val]
    simp [sumAmountsOn]
  · have hd' := (groupFold_keys _ _ _).mp hd
    rcases hd' with hfalse | ⟨e, he, hx⟩
    · cases hfalse
    · rcases List.mem_filter.mp he with ⟨hmem, hflt⟩
      refine ⟨e, hmem, ?_, ?_, ?_, hx⟩
      · have h1 := (Bool.and_eq_true _ _).mp hflt
        have h2 := (Bool.and_eq_true _ _).mp h1.1
        exact beq_iff_eq.mp h2.1
      · have h1 := (Bool.and_eq_true _ _).mp hflt
        have h2 := (Bool.and_eq_true _ _).mp h1.1
        exact beq_iff_eq.mp h2.2
      · have h1 := (Bool.and_eq_true _ _).mp hflt
        exact of_decide_eq_true h1.2

/-- C5 witness: on the store holding only the future-dated revenue entry,
the returned pair (11, 500) carries the sum of exactly the filtered rows
and is witnessed by that entry. -/
theorem C5_weekly_window_witness :
    ((11 : Int), (500 : Int)).2
        = sumAmountsOn ([futureEntry].filter (weeklyRowFilter "A" 10))
            ((11 : Int), (500 : Int)).1 ∧
      ∃ e ∈ [futureEntry], e.user_id = "A" ∧ e.type = "receita" ∧
        (10 : Int) - 6 ≤ e.entry_date ∧ e.entry_date = ((11 : Int), (500 : Int)).1 := by
  refine C5_weekly_window [futureEntry] "A" 10 (11, 500) ?_
  have h : fetchWeeklyEarnings [futureEntry] "A" 10 = [(11, 500)] := rfl
  rw [h]
  exact List.mem_singleton.mpr rfl

/-- C6: the weekly-earnings output has one grouped pair per distinct date
with at least one matching revenue entry and none for other dates — with
entries only on days 1 and 3 of the 7-day window ending on day 7 it
returns exactly the two grouped pairs, not seven zero-filled ones. -/
theorem C6_omission_policy (table : List FinancialEntry) (uid : String)
    (today : Int) :
    ((fetchWeeklyEarnings table uid today).map Prod.fst).Nodup ∧
    (∀ d : Int,
      d ∈ (fetchWeeklyEarnings table uid today).map Prod.fst ↔
        ∃ e ∈ table, weeklyRowFilter uid today e = true ∧ e.entry_date = d) ∧
    fetchWeeklyEarnings [day1Entry, day3Entry] "A" 7 = [(1, 100), (3, 200)] := by
  have hkeys : (fetchWeeklyEarnings table uid today).map Prod.fst
      = (groupByDay (table.filter (weeklyRowFilter uid today))).keys := by
    simp only [fetchWeeklyEarnings, List.map_map]
    exact List.map_id _
  refine ⟨?_, ?_, by rfl⟩
  · rw [hkeys]
    exact groupFold_nodup _ _ List.nodup_nil
  · intro d
    rw [hkeys]
    unfold groupByDay
    rw [groupFold_keys]
    constructor
    · rintro (hfalse | ⟨e, he, hx⟩)
      · cases hfalse
      · rcases List.mem_filter.mp he with ⟨hmem, hflt⟩
        exact ⟨e, hmem, hflt, hx⟩
    · rintro ⟨e, he, hflt, hx⟩
      exact Or.inr ⟨e, List.mem_filter.mpr ⟨he, hflt⟩, hx⟩

/-! ### Helper lemmas for the owner-scoping and ordering theorems -/

/-- Mapping a function over a list does not change the rows selected by a
filter, provided the function preserves the filter key and fixes every
selected row. -/
theorem filter_map_of_fix {α : Type} (g : α → α) (p : α → Bool) (l : List α)
    (hp : ∀ a, p (g a) = p a) (hfix : ∀ a, p a = true → g a = a) :
    (l.map g).filter p = l.filter p := by
  induction l with
  | nil => rfl
  | cons a l ih =>
    rw [List.map_cons]
    by_cases h : p a = true
    · rw [List.filter_cons_of_pos (by rw [hp a]; exact h),
        List.filter_cons_of_pos h, hfix a h, ih]
    · rw [List.filter_cons_of_neg (by rw [hp a]; exact h),
        List.filter_cons_of_neg h, ih]

/-- Every record returned by `fetchProducts` belongs to the requested
owner. -/
theorem fetchProducts_user (table : List Product) (uid : String) (p : Product)
    (hp : p ∈ fetchProducts table uid) : p.user_id = uid := by
  have hmem : p ∈ table.filter (fun r => r.user_id == uid) :=
    (List.perm_insertionSort byNameAsc _).mem_iff.mp hp
  exact beq_iff_eq.mp (List.mem_filter.mp hmem).2

/-- Every record returned by `fetchAppointments` belongs to the requested
owner. -/
theorem fetchAppointments_user (table : List Appointment) (uid : String)
    (a : Appointment) (ha : a ∈ fetchAppointments table uid) : a.user_id = uid := by
  have hmem : a ∈ table.filter (fun r => r.user_id == uid) :=
    (List.perm_insertionSort byDateAsc _).mem_iff.mp ha
  exact beq_iff_eq.mp (List.mem_filter.mp hmem).2

/-- Every record returned by `fetchEntries` belongs to the requested
owner. -/
theorem fetchEntries_user (table : List FinancialEntry) (uid : String)
    (e : FinancialEntry) (he : e ∈ fetchEntries table uid) : e.user_id = uid := by
  have hmem : e ∈ table.filter (fun r => r.user_id == uid) :=
    (List.perm_insertionSort byEntryDateDesc _).mem_iff.mp he
  exact beq_iff_eq.mp (List.mem_filter.mp hmem).2

/-- C1 counterexample: the part_001 financial-entry update request filters
only by record id, so issued against a backing store holding owner B's
entry with the targeted id, it mutates that record of owner B (amount 100
becomes 999). -/
theorem C1_counterexample :
    entryB.user_id = "B" ∧ entryB.amount = 100 ∧
    (updateEntryRequest [entryB] 1 patchX).map (fun e => (e.user_id, e.amount))
      = [("B", 999)] := by
  refine ⟨rfl, rfl, ?_⟩
  rfl

/-- C1 amended: fetches return only the requested owner's records, and
the product update/delete and financial-entry delete requests carry the
owner filter and leave every other owner's records exactly unchanged; the
financial-entry update request, however, filters by record id only —
owner isolation for it degrades to: records with a different id are
unchanged (a record of another owner carrying the targeted id is
mutated, per the counterexample). -/
theorem C1_owner_scoping (ptable : List Product) (atable : List Appointment)
    (ftable : List FinancialEntry) (uidA uidB : String) (h : uidA ≠ uidB)
    (pid eid nid : Nat) (ppatch : ProductPatch) (epatch : EntryPatch) :
    (∀ p ∈ fetchProducts ptable uidA, p.user_id = uidA) ∧
    (∀ a ∈ fetchAppointments atable uidA, a.user_id = uidA) ∧
    (∀ e ∈ fetchEntries ftable uidA, e.user_id = uidA) ∧
    (insertProductRequest ptable uidA nid ppatch).filter (fun r => r.user_id == uidB)
      = ptable.filter (fun r => r.user_id == uidB) ∧
    (updateProductRequest ptable uidA pid ppatch).filter (fun r => r.user_id == uidB)
      = ptable.filter (fun r => r.user_id == uidB) ∧
    (deleteProductRequest ptable uidA pid).filter (fun r => r.user_id == uidB)
      = ptable.filter (fun r => r.user_id == uidB) ∧
    (deleteEntryRequest ftable uidA eid).filter (fun r => r.user_id == uidB)
      = ftable.filter (fun r => r.user_id == uidB) ∧
    (updateEntryRequest ftable eid epatch).filter (fun r => !(r.id == eid))
      = ftable.filter (fun r => !(r.id == eid)) := by
  refine ⟨fun p hp => fetchProducts_user ptable uidA p hp,
    fun a ha => fetchAppointments_user atable uidA a ha,
    fun e he => fetchEntries_user ftable uidA e he, ?_, ?_, ?_, ?_, ?_⟩
  · unfold insertProductRequest
    rw [List.filter_append, List.filter_cons_of_neg, List.filter_nil,
      List.append_nil]
    simp [h]
  · unfold updateProductRequest
    refine filter_map_of_fix _ _ _ ?_ ?_
    · intro a
      by_cases hc : (a.id == pid && a.user_id == uidA) = true
      · rw [if_pos hc]
        rfl
      · rw [if_neg hc]
    · intro a ha
      have h' : uidB ≠ uidA := fun hc => h hc.symm
      have hA : (a.user_id == uidA) = false := by
        have hB : a.user_id = uidB := beq_iff_eq.mp ha
        simp [hB, h']
      rw [if_neg]
      simp [hA]
  · unfold deleteProductRequest
    rw [List.filter_filter]
    refine List.filter_congr ?_
    intro a _
    by_cases hu : (a.user_id == uidB) = true
    · have h' : uidB ≠ uidA := fun hc => h hc.symm
      have hA : (a.user_id == uidA) = false := by
        have hB : a.user_id = uidB := beq_iff_eq.mp hu
        simp [hB, h']
      simp [hu, hA]
    · rw [Bool.not_eq_true] at hu
      simp [hu]
  · unfold deleteEntryRequest
    rw [List.filter_filter]
    refine List.filter_congr ?_
    intro a _
    by_cases hu : (a.user_id == uidB) = true
    · have h' : uidB ≠ uidA := fun hc => h hc.symm
      have hA : (a.user_id == uidA) = false := by
        have hB : a.user_id = uidB := beq_iff_eq.mp hu
        simp [hB, h']
      simp [hu, hA]
    · rw [Bool.not_eq_true] at hu
      simp [hu]
  · unfold updateEntryRequest
    refine filter_map_of_fix _ _ _ ?_ ?_
    · intro a
      by_cases hc : (a.id == eid) = true
      · rw [if_pos hc]
        rfl
      · rw [if_neg hc]
    · intro a ha
      rw [if_neg]
      simp only [Bool.not_eq_true'] at ha
      simp [ha]

/-- C1 witness: with owners A and B and single-record stores owned by B,
the scoped product update leaves B's records untouched and the unscoped
financial-entry update leaves the non-targeted ids untouched. -/
theorem C1_owner_scoping_witness :
    (updateProductRequest [prodB] "A" 1 ppatch0).filter (fun r => r.user_id == "B")
      = [prodB].filter (fun r => r.user_id == "B") ∧
    (deleteProductRequest [prodB] "A" 1).filter (fun r => r.user_id == "B")
      = [prodB].filter (fun r => r.user_id == "B") ∧
    (updateEntryRequest [entryB] 1 patchX).filter (fun r => !(r.id == 1))
      = [entryB].filter (fun r => !(r.id == 1)) := by
  have h := C1_owner_scoping [prodB] [] [entryB] "A" "B" (by decide) 1 1 2 ppatch0 patchX
  exact ⟨h.2.2.2.2.1, h.2.2.2.2.2.1, h.2.2.2.2.2.2.2⟩

/-- C9: for every owner, the fetched Products sequence is ordered by name
ascending, the fetched Appointments sequence by appointment timestamp
ascending, and the fetched FinancialEntries sequence by entry date
descending; each is a permutation of the owner's rows. -/
theorem C9_fetch_ordering (ptable : List Product) (atable : List Appointment)
    (ftable : List FinancialEntry) (uid : String) :
    List.Sorted byNameAsc (fetchProducts ptable uid) ∧
    List.Sorted byDateAsc (fetchAppointments atable uid) ∧
    List.Sorted byEntryDateDesc (fetchEntries ftable uid) ∧
    List.Perm (fetchProducts ptable uid)
      (ptable.filter (fun r => r.user_id == uid)) ∧
    List.Perm (fetchAppointments atable uid)
      (atable.filter (fun r => r.user_id == uid)) ∧
    List.Perm (fetchEntries ftable uid)
      (ftable.filter (fun r => r.user_id == uid)) :=
  ⟨List.sorted_insertionSort byNameAsc _,
   List.sorted_insertionSort byDateAsc _,
   List.sorted_insertionSort byEntryDateDesc _,
   List.perm_insertionSort byNameAsc _,
   List.perm_insertionSort byDateAsc _,
   List.perm_insertionSort byEntryDateDesc _⟩

end SalonFlow
